import Mathlib

/-!
Verification development for a small JavaScript-to-Rust compiler.

The program has two halves:
- a runtime prelude (`output_prelude.rs`) defining the dynamic value type
  `JsValue`, its heap objects, coercions (`truthy`, `to_js_string`),
  arithmetic (`add`, `sub`, `mult`, `divide`, `less`) and property access
  (`get_prop`, `set_prop`, `call`);
- a lowering pass (`mod.rs`) that walks the JavaScript AST and emits Rust
  text that calls into that prelude.

This file gives a shallow embedding of both halves.

Number model: the Rust runtime stores numbers as `f64`.  Here finite
doubles are modelled exactly by unnormalised rationals (`F64` below:
integer numerator over natural denominator), so that all runtime
operations compute inside the kernel.  Rounding error, NaN, infinities
and negative zero are outside the model; values with denominator 0 are
artifacts standing in for the nonfinite results and are never produced
by the scenarios the theorems quantify over.

Heap model: Rust's `Rc<JsCell<JsObjectContents>>` sharing is modelled by
a store (list of object contents) addressed by index; `JsValue.object r`
holds the index, mirroring how every clone of the `Rc` aliases the same
cell.  Mutating operations return the updated store.
-/

namespace JsRs

/-- Exact rational model of a finite `f64`: `num / den`.  Operations are
performed without normalisation (no gcd), which keeps every operation
kernel-computable; Rust's `==` on `f64` is modelled by the cross
multiplication test `beq`, not by structural equality. -/
structure F64 where
  num : Int
  den : Nat
deriving DecidableEq

namespace F64

/-- Embeds a natural number literal. -/
def ofNat (n : Nat) : F64 := ⟨(n : Int), 1⟩

/-- Embeds an integer literal. -/
def ofInt (z : Int) : F64 := ⟨z, 1⟩

/-- Model of `a + b` on `f64`. -/
def fadd (a b : F64) : F64 := ⟨a.num * (b.den : Int) + b.num * (a.den : Int), a.den * b.den⟩

/-- Model of `a - b` on `f64`. -/
def fsub (a b : F64) : F64 := ⟨a.num * (b.den : Int) - b.num * (a.den : Int), a.den * b.den⟩

/-- Model of `a * b` on `f64`. -/
def fmul (a b : F64) : F64 := ⟨a.num * b.num, a.den * b.den⟩

/-- Model of `a / b` on `f64` (division by zero yields a denominator-0
artifact, standing in for the nonfinite quotient). -/
def fdiv (a b : F64) : F64 :=
  ⟨(if b.num < 0 then -(a.num * (b.den : Int)) else a.num * (b.den : Int)),
    a.den * b.num.natAbs⟩

/-- Model of `a == b` on `f64`: numeric equality by cross multiplication. -/
def beq (a b : F64) : Bool := decide (a.num * (b.den : Int) = b.num * (a.den : Int))

/-- Model of `a < b` on `f64`. -/
def blt (a b : F64) : Bool := decide (a.num * (b.den : Int) < b.num * (a.den : Int))

/-- The integer nearest to `a`, ties away from zero: the value computed
by Rust's `f64::round`. -/
def roundInt (a : F64) : Int :=
  if a.num < 0 then -(((2 * a.num.natAbs + a.den) / (2 * a.den) : Nat) : Int)
  else (((2 * a.num.natAbs + a.den) / (2 * a.den) : Nat) : Int)

/-- Model of `a.round()` on `f64`. -/
def fround (a : F64) : F64 := ⟨roundInt a, 1⟩

/-- Model of Rust's `as usize` cast on `f64`: truncation toward zero,
saturating below at 0 and above at `usize::MAX` (64-bit target).  In
particular every negative double casts to index 0. -/
def toUsize (a : F64) : Nat :=
  if a.num < 0 then 0 else min (a.num.natAbs / a.den) (2 ^ 64 - 1)

end F64

/-- Defunctionalised bodies of the native closures the runtime builds with
`JsValue::new_function`.  Only `toFixed` (built inside `get_prop` on a
`Number` receiver, capturing the receiver) is reachable from the claims;
the built-in bindings (`console.log`, `Math.sqrt`) are not modelled. -/
inductive FnCode where
  | toFixed (num : F64)

/-- The dynamic value type, mirroring `enum JsValue` of the prelude.
`object` holds a store index in place of the `Rc` handle. -/
inductive JsValue where
  | null
  | undefined
  | boolean (b : Bool)
  | number (n : F64)
  | string (s : String)
  | object (ref : Nat)

/-- Mirrors `enum ObjectSubtype`. -/
inductive ObjectSubtype where
  | regularObject
  | function (code : FnCode)
  | array (elems : List JsValue)

/-- Mirrors `struct JsObjectContents`: a property table plus the fixed
subtype.  The `HashMap<JsString, JsValue>` is modelled as an association
list with insert-or-replace. -/
structure JsObjectContents where
  properties : List (String × JsValue)
  subtype : ObjectSubtype

/-- The heap: object contents addressed by index. -/
abbrev Store := List JsObjectContents

/-- `HashMap::get` on the property table. -/
def propsGet (props : List (String × JsValue)) (key : String) : Option JsValue :=
  props.lookup key

/-- `HashMap::insert` on the property table: replaces the binding for
`key` if present, otherwise adds it. -/
def propsInsert (props : List (String × JsValue)) (key : String) (v : JsValue) :
    List (String × JsValue) :=
  (key, v) :: props.filter (fun p => p.1 ≠ key)

namespace JsValue

/-- Mirrors `JsValue::truthy`.  Note the `String` arm returns
`string.as_str().is_empty()` exactly as the source does. -/
def truthy : JsValue → Bool
  | .undefined => false
  | .null => false
  | .boolean b => b
  | .number n => !(F64.beq n (F64.ofNat 0))
  | .string s => s.isEmpty
  | .object _ => true

/-- Mirrors `JsValue::falsy`. -/
def falsy (v : JsValue) : Bool := !v.truthy

/-- Mirrors `JsValue::to_js_string`.  The rendering of a `Number`
(`format!` on the double) is modelled by an exact rendering of the
rational; no claim depends on the digits of a number rendering. -/
def numToString (n : F64) : String :=
  if n.den = 1 then toString n.num else toString n.num ++ "/" ++ toString n.den

/-- Mirrors `JsValue::to_js_string`. -/
def to_js_string : JsValue → String
  | .null => "null"
  | .undefined => "undefined"
  | .boolean b => if b then "true" else "false"
  | .number n => numToString n
  | .string s => s
  | .object _ => "[object Object]"

/-- Mirrors the private helper `JsValue::do_binary_operation_nums`: both
operands must already be `Number`, any other pairing is the
`unimplemented!()` panic, modelled as `Except.error`. -/
def do_binary_operation_nums (self other : JsValue) (operation : F64 → F64 → F64) :
    Except String JsValue :=
  match self, other with
  | .number self_num, .number other_num => .ok (.number (operation self_num other_num))
  | _, _ => .error "unimplemented"

/-- Mirrors `JsValue::add`. -/
def add (self other : JsValue) : Except String JsValue :=
  do_binary_operation_nums self other F64.fadd

/-- Mirrors `JsValue::sub`. -/
def sub (self other : JsValue) : Except String JsValue :=
  do_binary_operation_nums self other F64.fsub

/-- Mirrors `JsValue::mult`. -/
def mult (self other : JsValue) : Except String JsValue :=
  do_binary_operation_nums self other F64.fmul

/-- Mirrors `JsValue::divide`. -/
def divide (self other : JsValue) : Except String JsValue :=
  do_binary_operation_nums self other F64.fdiv

/-- Mirrors `JsValue::less`: both operands must already be `Number`. -/
def less (self other : JsValue) : Except String JsValue :=
  match self, other with
  | .number self_num, .number other_num => .ok (.boolean (F64.blt self_num other_num))
  | _, _ => .error "unimplemented"

end JsValue

/-- Digit characters of the `d`-digit zero-padded decimal rendering of
`m % 10 ^ d`, least significant digit last; the fractional part that
`format!` with precision `d` prints. -/
def fracDigits : Nat → Nat → List Char
  | 0, _ => []
  | d + 1, m => fracDigits d (m / 10) ++ [Nat.digitChar (m % 10)]

/-- The value scaled by `10 ^ d` and rounded to an integer: the digit
string that `format!` with precision `d` distributes around the point. -/
def fmtScaled (n : F64) (d : Nat) : Int :=
  F64.roundInt (F64.fmul n ⟨(10 : Int) ^ d, 1⟩)

/-- Sign and integer part of the fixed-point rendering. -/
def fmtIntPart (n : F64) (d : Nat) : String :=
  (if fmtScaled n d < 0 then "-" else "") ++ toString ((fmtScaled n d).natAbs / 10 ^ d)

/-- The `d` fractional digit characters of the fixed-point rendering. -/
def fmtFracPart (n : F64) (d : Nat) : List Char :=
  fracDigits d ((fmtScaled n d).natAbs % 10 ^ d)

/-- Model of `format!` with explicit precision on a double
(`{number:.prec$}`): the decimal fixed-point rendering of the value
rounded to `d` fractional digits.  (Rust rounds the exact decimal
expansion to nearest with ties to even; the model rounds the rational
with ties away from zero.  No claim depends on the tie case.) -/
def fmtFixed (n : F64) (d : Nat) : String :=
  if d = 0 then (if fmtScaled n d < 0 then "-" else "") ++ toString (fmtScaled n d).natAbs
  else fmtIntPart n d ++ "." ++ String.mk (fmtFracPart n d)

namespace JsValue

/-- Mirrors `JsValue::from_entries`: allocates a plain object. -/
def from_entries (st : Store) (entries : List (String × JsValue)) : JsValue × Store :=
  (.object st.length, st ++ [⟨entries, .regularObject⟩])

/-- Mirrors `JsValue::new_array`: allocates an array object with an empty
property table. -/
def new_array (st : Store) (elements : List JsValue) : JsValue × Store :=
  (.object st.length, st ++ [⟨[], .array elements⟩])

/-- Mirrors `JsValue::new_function`: allocates a function object with an
empty property table. -/
def new_function (st : Store) (code : FnCode) : JsValue × Store :=
  (.object st.length, st ++ [⟨[], .function code⟩])

/-- Mirrors `JsValue::get_prop`.  Panics (`panic!`, `assert_eq!`,
`unimplemented!`, index out of bounds) are modelled as `Except.error`.
The `Number` receiver arm allocates the `toFixed` closure, so the
operation returns the possibly-grown store. -/
def get_prop (st : Store) (self name : JsValue) : Except String (JsValue × Store) :=
  match self with
  | .undefined =>
      .error ("Cannot read properties of undefined, reading " ++ name.to_js_string)
  | .object ref =>
      match List.get? st ref with
      | none => .error "dangling object reference"
      | some obj =>
          match obj.subtype with
          | .array elems =>
              match name with
              | .number index =>
                  if F64.beq index (F64.fround index) then
                    match List.get? elems (F64.toUsize index) with
                    | some v => .ok (v, st)
                    | none => .error "index out of bounds"
                  else .error "assertion failed: index == index.round()"
              | .string s =>
                  if s = "length" then .ok (.number (F64.ofNat elems.length), st)
                  else .error "unimplemented"
              | _ => .error "unimplemented"
          | _ => .ok ((propsGet obj.properties name.to_js_string).getD .undefined, st)
  | .number num =>
      match name with
      | .string prop =>
          if prop = "toFixed" then .ok (new_function st (.toFixed num))
          else .error "unimplemented"
      | _ => .error "unimplemented"
  | _ => .error "unimplemented"

/-- Mirrors `JsValue::set_prop`; returns the updated store. -/
def set_prop (st : Store) (self name value : JsValue) : Except String Store :=
  match self with
  | .object ref =>
      match List.get? st ref with
      | none => .error "dangling object reference"
      | some obj =>
          match obj.subtype with
          | .array elems =>
              match name with
              | .number index =>
                  if F64.beq index (F64.fround index) then
                    if F64.toUsize index < elems.length then
                      .ok (List.set st ref ⟨obj.properties, .array (elems.set (F64.toUsize index) value)⟩)
                    else .error "index out of bounds"
                  else .error "assertion failed: index == index.round()"
              | _ => .error "unimplemented"
          | _ =>
              .ok (List.set st ref ⟨propsInsert obj.properties name.to_js_string value, obj.subtype⟩)
  | _ => .error "unimplemented"

/-- Body of a defunctionalised native closure (see `FnCode`). -/
def run_native (st : Store) (code : FnCode) (args : List JsValue) :
    Except String (JsValue × Store) :=
  match code with
  | .toFixed num =>
      match List.get? args 0 with
      | some (.number digits) => .ok (.string (fmtFixed num (F64.toUsize digits)), st)
      | some _ => .error "unreachable"
      | none => .error "index out of bounds"

/-- Mirrors `JsValue::call`: only `Function`-subtype objects are
invocable. -/
def call (st : Store) (self : JsValue) (args : List JsValue) :
    Except String (JsValue × Store) :=
  match self with
  | .object ref =>
      match List.get? st ref with
      | none => .error "dangling object reference"
      | some obj =>
          match obj.subtype with
          | .function code => run_native st code args
          | _ => .error "Used the funciton call syntax () on something that isnt callable"
  | _ => .error "Used the funciton call syntax () on something that isnt callable"

end JsValue

/-- True exactly on the faulting (panicking) outcomes. -/
def isFault {α : Type} : Except String α → Bool
  | .error _ => true
  | .ok _ => false

/-- Recognises the `Number` variant. -/
def isNumber : JsValue → Bool
  | .number _ => true
  | _ => false

/-!
## Lowering (`mod.rs`)

The lowering pass emits Rust text.  Two views of it are embedded:

- a text view of the name tables and of the identifier arm of
  `assignment_expression_to_rust_text`, kept at the string level because
  the name-compatibility claims are about the emitted characters;
- a structural view for the constructs whose behaviour the claims test:
  each emitted Rust fragment is represented by a constructor of a small
  target AST (`RExpr`/`RStmt`) in one-to-one correspondence with the
  format strings of `mod.rs`, and the target AST is given the Rust
  semantics by a fuelled interpreter (`run`).  The fragment the claims
  exercise only touches local bindings, so the interpreter state is a
  plain environment and no heap store is threaded.
-/

/-- The binary operators `binary_operator_to_rust_text` covers. -/
inductive BinOp where
  | addition
  | subtraction
  | division
  | lessThan
  | multiplication

/-- The assignment operators the identifier arm of
`assignment_expression_to_rust_text` covers. -/
inductive AssignOp where
  | assign
  | addition
  | subtraction
  | division
  | multiplication

/-- `++` or `--`. -/
inductive UpdateOp where
  | increment
  | decrement

/-- `const` or `let` declarations (`var` is unimplemented). -/
inductive DeclKind where
  | constKind
  | letKind

/-- Mirrors `binary_operator_to_rust_text`: the name of the equivalent
method in the Rust prelude. -/
def binary_operator_to_rust_text : BinOp → String
  | .addition => "add"
  | .subtraction => "sub"
  | .division => "divide"
  | .lessThan => "less"
  | .multiplication => "mult"

/-- Mirrors the `source` computed by the identifier arm of
`assignment_expression_to_rust_text`: plain `=` keeps the right-hand
text, compound operators wrap it in a method call on the target. -/
def assignment_identifier_source_text (target source : String) : AssignOp → String
  | .assign => source
  | .addition => target ++ ".add(" ++ source ++ ")"
  | .subtraction => target ++ ".sub(" ++ source ++ ")"
  | .division => target ++ ".div(" ++ source ++ ")"
  | .multiplication => target ++ ".mult(" ++ source ++ ")"

/-- Mirrors the identifier arm of `assignment_expression_to_rust_text`:
the emitted text is `{target} = {source}`. -/
def assignment_identifier_rust_text (target : String) (op : AssignOp) (source : String) :
    String :=
  target ++ " = " ++ assignment_identifier_source_text target source op

/-- The public methods `impl JsValue` in the prelude exposes: the Runtime
surface the emitted method names must hit. -/
def js_value_pub_methods : List String :=
  ["add", "sub", "mult", "divide", "less", "get_prop", "set_prop",
   "to_js_string", "falsy", "truthy", "to_number", "call"]

mutual
/-- Target AST for the emitted Rust expression fragments the claims
exercise.  Each constructor is one format string of `mod.rs`. -/
inductive RExpr where
  | lit (v : JsValue)
  | varRef (x : String)
  | methodCall (recv : RExpr) (method : String) (arg : RExpr)
  | assignExpr (x : String) (rhs : RExpr)
  | blockExpr (ss : List RStmt) (res : RExpr)
/-- Target AST for the emitted Rust statement fragments. -/
inductive RStmt where
  | letDecl (x : String) (rhs : RExpr)
  | letUninit (x : String)
  | assign (x : String) (rhs : RExpr)
  | exprStmt (e : RExpr)
  | ifFalsyBreak (cond : RExpr)
  | loopStmt (body : List RStmt)
  | blockStmt (ss : List RStmt)
end

/-- Local bindings of the generated `fn main`. -/
abbrev Env := String → JsValue

/-- Rebinds one variable. -/
def envSet (env : Env) (x : String) (v : JsValue) : Env :=
  fun y => if y = x then v else env y

/-- No bindings yet. -/
def emptyEnv : Env := fun _ => .undefined

/-- Dispatches an emitted `.name(...)` method call to the prelude method
of that name.  The final arm models text that names a method the prelude
does not define: such generated code is rejected by the Rust compiler,
which the model signals as a fault. -/
def runtimeMethod (name : String) (a b : JsValue) : Except String JsValue :=
  if name = "add" then a.add b
  else if name = "sub" then a.sub b
  else if name = "mult" then a.mult b
  else if name = "divide" then a.divide b
  else if name = "less" then a.less b
  else .error ("no binary method named " ++ name ++ " on JsValue")

/-- What the interpreter is asked to evaluate. -/
inductive Task where
  | expr (e : RExpr)
  | stmt (s : RStmt)
  | stmts (ss : List RStmt)

/-- Interpreter outcome: an expression value, normal statement
completion, a `break` propagating to the enclosing `loop`, a fault, or
fuel exhaustion. -/
inductive TRes where
  | val (v : JsValue) (env : Env)
  | done (env : Env)
  | brk (env : Env)
  | fault (msg : String)
  | timeout

/-- Fuelled interpreter for the target fragments, giving the Rust
semantics of the emitted code: `loop` repeats its body until a `break`
escapes, blocks run their statements in order, assignment expressions
evaluate to the unit-like `undefined`.  Fuel shrinks at every node, so
the recursion is structural and concrete runs reduce in the kernel. -/
def run : Nat → Env → Task → TRes
  | 0, _, _ => .timeout
  | fuel + 1, env, .expr e =>
      match e with
      | .lit v => .val v env
      | .varRef x => .val (env x) env
      | .methodCall recv m arg =>
          match run fuel env (.expr recv) with
          | .val rv env1 =>
              match run fuel env1 (.expr arg) with
              | .val av env2 =>
                  match runtimeMethod m rv av with
                  | .ok v => .val v env2
                  | .error msg => .fault msg
              | other => other
          | other => other
      | .assignExpr x rhs =>
          match run fuel env (.expr rhs) with
          | .val v env1 => .val .undefined (envSet env1 x v)
          | other => other
      | .blockExpr ss res =>
          match run fuel env (.stmts ss) with
          | .done env1 => run fuel env1 (.expr res)
          | .brk _ => .fault "break out of expression block"
          | other => other
  | fuel + 1, env, .stmt s =>
      match s with
      | .letDecl x rhs =>
          match run fuel env (.expr rhs) with
          | .val v env1 => .done (envSet env1 x v)
          | other => other
      | .letUninit _ => .done env
      | .assign x rhs =>
          match run fuel env (.expr rhs) with
          | .val v env1 => .done (envSet env1 x v)
          | other => other
      | .exprStmt e =>
          match run fuel env (.expr e) with
          | .val _ env1 => .done env1
          | other => other
      | .ifFalsyBreak cond =>
          match run fuel env (.expr cond) with
          | .val v env1 => if v.falsy then .brk env1 else .done env1
          | other => other
      | .loopStmt body =>
          match run fuel env (.stmts body) with
          | .done env1 => run fuel env1 (.stmt (.loopStmt body))
          | .brk env1 => .done env1
          | other => other
      | .blockStmt ss => run fuel env (.stmts ss)
  | fuel + 1, env, .stmts ss =>
      match ss with
      | [] => .done env
      | s :: rest =>
          match run fuel env (.stmt s) with
          | .done env1 => run fuel env1 (.stmts rest)
          | other => other

/-- Reads a binding out of a normally-completed run. -/
def resultVar (r : TRes) (x : String) : Option JsValue :=
  match r with
  | .done env => some (env x)
  | _ => none

/-!
## JavaScript-side AST and its lowering

The fragment of the oxc AST that the claims traverse.
-/

/-- JavaScript expressions (the lowered fragment). -/
inductive JsExpr where
  | numericLiteral (value : F64)
  | ident (name : String)
  | binary (op : BinOp) (left right : JsExpr)
  | assignIdent (target : String) (op : AssignOp) (right : JsExpr)
  | update (op : UpdateOp) (pre : Bool) (arg : String)
  | paren (e : JsExpr)

/-- `ForStatementInit`: a declaration or a plain expression. -/
inductive JsForInit where
  | varDecl (kind : DeclKind) (decls : List (String × Option JsExpr))
  | initExpr (e : JsExpr)

/-- JavaScript statements (the lowered fragment). -/
inductive JsStmt where
  | expressionStatement (e : JsExpr)
  | variableDeclaration (kind : DeclKind) (decls : List (String × Option JsExpr))
  | forStatement (finit : Option JsForInit) (test : Option JsExpr)
      (update : Option JsExpr) (body : JsStmt)
  | blockStatement (body : List JsStmt)

/-- Mirrors `update_expression_to_rust_text`.  Prefix emits
`{ x = x.add(JsValue::Number(1.0)); x }`; postfix first captures the old
value: `{ let tmp = (x).clone(); x = x.add(JsValue::Number(1.0)); tmp }`. -/
def update_expression_to_rust (op : UpdateOp) (pre : Bool) (name : String) : RExpr :=
  match pre, op with
  | true, .decrement =>
      .blockExpr [.assign name (.methodCall (.varRef name) "sub" (.lit (.number (F64.ofNat 1))))]
        (.varRef name)
  | true, .increment =>
      .blockExpr [.assign name (.methodCall (.varRef name) "add" (.lit (.number (F64.ofNat 1))))]
        (.varRef name)
  | false, .decrement =>
      .blockExpr
        [.letDecl "tmp" (.varRef name),
         .assign name (.methodCall (.varRef name) "sub" (.lit (.number (F64.ofNat 1))))]
        (.varRef "tmp")
  | false, .increment =>
      .blockExpr
        [.letDecl "tmp" (.varRef name),
         .assign name (.methodCall (.varRef name) "add" (.lit (.number (F64.ofNat 1))))]
        (.varRef "tmp")

/-- Mirrors `expression_to_rust_text` on the embedded fragment.  A binary
expression emits `({left}).{op}(({right}).clone())`; an identifier
assignment emits `{target} = {source}` with the compound-operator
wrapping of `assignment_expression_to_rust_text` (note the `div` name
in the division arm, exactly as the source writes it); parentheses are
textual grouping only. -/
def expression_to_rust : JsExpr → RExpr
  | .numericLiteral v => .lit (.number v)
  | .ident x => .varRef x
  | .binary op l r =>
      .methodCall (expression_to_rust l) (binary_operator_to_rust_text op)
        (expression_to_rust r)
  | .assignIdent t op rhs =>
      .assignExpr t
        (match op with
         | .assign => expression_to_rust rhs
         | .addition => .methodCall (.varRef t) "add" (expression_to_rust rhs)
         | .subtraction => .methodCall (.varRef t) "sub" (expression_to_rust rhs)
         | .division => .methodCall (.varRef t) "div" (expression_to_rust rhs)
         | .multiplication => .methodCall (.varRef t) "mult" (expression_to_rust rhs))
  | .update op pre name => update_expression_to_rust op pre name
  | .paren e => expression_to_rust e

/-- Mirrors `variable_declaration_to_rust_text`: one `let`/`let mut`
binding per declarator (the mutability marker only affects target-side
checking and is not part of the dynamic semantics); a missing
initialiser emits a deferred-initialisation `let`. -/
def variable_declaration_to_rust (_kind : DeclKind) (decls : List (String × Option JsExpr)) :
    List RStmt :=
  decls.map (fun d =>
    match d.2 with
    | some e => RStmt.letDecl d.1 (expression_to_rust e)
    | none => RStmt.letUninit d.1)

mutual
/-- Mirrors `statement_to_rust_text` on the embedded fragment.  A
for-statement emits the lowered init clause once, then an unconditional
`loop` whose body is the test (lowered to a falsy-break when present),
the lowered body, then the lowered update. -/
def statement_to_rust : JsStmt → List RStmt
  | .expressionStatement e => [.exprStmt (expression_to_rust e)]
  | .variableDeclaration kind decls => variable_declaration_to_rust kind decls
  | .forStatement finit test update body =>
      (match finit with
       | some (.varDecl kind decls) => variable_declaration_to_rust kind decls
       | some (.initExpr e) => [.exprStmt (expression_to_rust e)]
       | none => []) ++
      [RStmt.loopStmt
        ((match test with
          | some t => [RStmt.ifFalsyBreak (expression_to_rust t)]
          | none => []) ++
         statement_to_rust body ++
         (match update with
          | some u => [RStmt.exprStmt (expression_to_rust u)]
          | none => []))]
  | .blockStatement body => [.blockStmt (statements_to_rust body)]
/-- Lowers a statement sequence, concatenating the pieces. -/
def statements_to_rust : List JsStmt → List RStmt
  | [] => []
  | s :: rest => statement_to_rust s ++ statements_to_rust rest
end

/-- The program of the for-loop test scenario:
`let sum = 0; for (let i = 0; i < 3; i++) { sum = sum + i; }`. -/
def forExample : List JsStmt :=
  [.variableDeclaration .letKind [("sum", some (.numericLiteral (F64.ofNat 0)))],
   .forStatement
     (some (.varDecl .letKind [("i", some (.numericLiteral (F64.ofNat 0)))]))
     (some (.binary .lessThan (.ident "i") (.numericLiteral (F64.ofNat 3))))
     (some (.update .increment false "i"))
     (.blockStatement
       [.expressionStatement
         (.assignIdent "sum" .assign (.binary .addition (.ident "sum") (.ident "i")))])]

/-- A store holding exactly the array built from the literal `[1, 2, 3]`
(what `JsValue.new_array` allocates for it on an empty store). -/
def arr123St : Store :=
  [⟨[], .array [.number (F64.ofNat 1), .number (F64.ofNat 2), .number (F64.ofNat 3)]⟩]

/-- The characters after the last `.` of a string, if it has one. -/
def afterLastDot (s : String) : Option (List Char) :=
  if ('.') ∈ s.data then
    some ((s.data.reverse.takeWhile (fun c => c != '.')).reverse)
  else none

/-!
## Helper lemmas
-/

/-- A natural number double rounds to itself. -/
theorem F64.roundInt_ofNat (i : Nat) : F64.roundInt (F64.ofNat i) = (i : Int) := by
  have h1 : ¬ ((i : Int) < 0) := by omega
  simp only [F64.roundInt, F64.ofNat, h1, if_false, Int.natAbs_ofNat]
  have h2 : (2 * i + 1) / (2 * 1) = i := by omega
  rw [h2]

/-- A natural number double passes the `index == index.round()` check. -/
theorem F64.beq_round_ofNat (i : Nat) :
    F64.beq (F64.ofNat i) (F64.fround (F64.ofNat i)) = true := by
  have h : F64.roundInt ⟨(i : Int), 1⟩ = (i : Int) := F64.roundInt_ofNat i
  simp [F64.beq, F64.fround, F64.ofNat, h]

/-- Below the saturation bound, casting a natural number double to
`usize` is the identity. -/
theorem F64.toUsize_ofNat (i : Nat) (h : i < 2 ^ 64) :
    F64.toUsize (F64.ofNat i) = i := by
  have h1 : ¬ ((i : Int) < 0) := by omega
  simp only [F64.toUsize, F64.ofNat, h1, if_false, Int.natAbs_ofNat, Nat.div_one]
  omega

/-- `fracDigits` produces exactly the requested number of characters. -/
theorem fracDigits_length : ∀ (d m : Nat), (fracDigits d m).length = d := by
  intro d
  induction d with
  | zero => intro m; rfl
  | succ d ih => intro m; simp [fracDigits, ih (m / 10)]

/-- Every character `fracDigits` produces is a decimal digit. -/
theorem fracDigits_isDigit : ∀ (d m : Nat), ∀ c ∈ fracDigits d m, c.isDigit = true := by
  intro d
  induction d with
  | zero => intro m c hc; simp [fracDigits] at hc
  | succ d ih =>
      intro m c hc
      simp only [fracDigits, List.mem_append, List.mem_singleton] at hc
      rcases hc with hc | hc
      · exact ih (m / 10) c hc
      · subst hc
        have h10 : m % 10 < 10 := Nat.mod_lt _ (by norm_num)
        have hall : ∀ k, k < 10 → (Nat.digitChar k).isDigit = true := by decide
        exact hall _ h10

/-- No character `fracDigits` produces is a point. -/
theorem fracDigits_ne_dot : ∀ (d m : Nat), ∀ c ∈ fracDigits d m, (c != '.') = true := by
  intro d m c hc
  have h := fracDigits_isDigit d m c hc
  have hne : c ≠ '.' := by
    intro he
    rw [he] at h
    exact absurd h (by decide)
  simpa [bne_iff_ne] using hne

/-- `takeWhile` passes over a block of characters the predicate accepts. -/
theorem takeWhile_append_all (p : Char → Bool) (l₁ l₂ : List Char)
    (h : ∀ c ∈ l₁, p c = true) :
    List.takeWhile p (l₁ ++ l₂) = l₁ ++ List.takeWhile p l₂ := by
  induction l₁ with
  | nil => simp
  | cons c cs ih =>
      have hc : p c = true := h c (List.mem_cons_self c cs)
      simp [List.takeWhile_cons, hc, ih (fun x hx => h x (List.mem_cons_of_mem c hx))]

/-- Splitting at the last point of `pre ++ "." ++ frac` recovers `frac`
when `frac` contains no point. -/
theorem afterLastDot_append (pre : String) (frac : List Char)
    (h : ∀ c ∈ frac, (c != '.') = true) :
    afterLastDot (pre ++ "." ++ String.mk frac) = some frac := by
  have hdot : (".").data = ['.'] := rfl
  have hdata : (pre ++ "." ++ String.mk frac).data = pre.data ++ '.' :: frac := by
    simp [String.data_append, hdot]
  have hmem : ('.') ∈ pre.data ++ '.' :: frac :=
    List.mem_append_right _ (List.mem_cons_self _ _)
  rw [afterLastDot, hdata, if_pos hmem, List.reverse_append, List.reverse_cons,
    List.append_assoc, List.singleton_append,
    takeWhile_append_all _ _ _ (fun c hc => h c (List.mem_reverse.mp hc))]
  simp [List.takeWhile_cons]

/-!
## Claim theorems
-/

/-- C1: the claim says `truthy` on a `String` is true exactly when the
string is non-empty.  The source returns `string.as_str().is_empty()`,
the inverse rule: the empty string is truthy and a non-empty string is
falsy.  (The other arms do match the claim: Undefined/Null are false,
Boolean is itself, Object is true.) -/
theorem c1_truthy_string_inverted :
    JsValue.truthy (.string "") = true ∧
    JsValue.truthy (.string "a") = false ∧
    JsValue.truthy .undefined = false ∧
    JsValue.truthy .null = false ∧
    (∀ b : Bool, JsValue.truthy (.boolean b) = b) ∧
    (∀ r : Nat, JsValue.truthy (.object r) = true) :=
  ⟨rfl, rfl, rfl, rfl, fun _ => rfl, fun _ => rfl⟩

/-- C2: on two `Number` operands, `add`/`sub`/`mult`/`divide` return the
`Number` of the corresponding double operation (modelled exactly on
`F64`), through the shared `do_binary_operation_nums` helper; whenever
either operand is not a `Number`, each of the four operations and `less`
faults. -/
theorem c2_binary_arithmetic :
    (∀ (f : F64 → F64 → F64) (a b : F64),
        JsValue.do_binary_operation_nums (.number a) (.number b) f = .ok (.number (f a b))) ∧
    (∀ a b : F64, JsValue.add (.number a) (.number b) = .ok (.number (F64.fadd a b))) ∧
    (∀ a b : F64, JsValue.sub (.number a) (.number b) = .ok (.number (F64.fsub a b))) ∧
    (∀ a b : F64, JsValue.mult (.number a) (.number b) = .ok (.number (F64.fmul a b))) ∧
    (∀ a b : F64, JsValue.divide (.number a) (.number b) = .ok (.number (F64.fdiv a b))) ∧
    (∀ v w : JsValue, isNumber v = false ∨ isNumber w = false →
        isFault (JsValue.add v w) = true ∧ isFault (JsValue.sub v w) = true ∧
        isFault (JsValue.mult v w) = true ∧ isFault (JsValue.divide v w) = true ∧
        isFault (JsValue.less v w) = true) := by
  refine ⟨fun _ _ _ => rfl, fun _ _ => rfl, fun _ _ => rfl, fun _ _ => rfl, fun _ _ => rfl, ?_⟩
  intro v w h
  cases v <;> cases w <;> first
    | exact ⟨rfl, rfl, rfl, rfl, rfl⟩
    | simp [isNumber] at h

/-- Closed instance of `c2_binary_arithmetic`: a non-`Number` left
operand makes every arithmetic operation and `less` fault. -/
theorem c2_binary_arithmetic_witness :
    isFault (JsValue.add .null (.string "x")) = true ∧
    isFault (JsValue.sub .null (.string "x")) = true ∧
    isFault (JsValue.mult .null (.string "x")) = true ∧
    isFault (JsValue.divide .null (.string "x")) = true ∧
    isFault (JsValue.less .null (.string "x")) = true :=
  c2_binary_arithmetic.2.2.2.2.2 .null (.string "x") (Or.inl rfl)

/-- C3: `get_prop` on an `Undefined` receiver faults for every key and
every store, and so does `set_prop`; neither returns a value. -/
theorem c3_undefined_receiver_faults :
    ∀ (st : Store) (k v : JsValue),
      isFault (JsValue.get_prop st .undefined k) = true ∧
      isFault (JsValue.set_prop st .undefined k v) = true :=
  fun _ _ _ => ⟨rfl, rfl⟩

/-- C4: the claim says compound assignment lowering emits the Runtime's
named method, so `x /= e` calls `divide`.  The identifier arm of
`assignment_expression_to_rust_text` instead emits `x = x.div(e)`, and
`div` is not among the public methods of `impl JsValue` — the emitted
name only exists for the binary operator table, which maps `/` to
`divide`.  Running the lowered `x /= e` therefore faults in the model
(the generated Rust does not compile).  The other compound operators do
hit the Runtime surface. -/
theorem c4_compound_division_names_missing_method :
    assignment_identifier_rust_text "x" .division "e" = "x = x.div(e)" ∧
    "div" ∉ js_value_pub_methods ∧
    binary_operator_to_rust_text .division = "divide" ∧
    "divide" ∈ js_value_pub_methods ∧
    assignment_identifier_rust_text "x" .addition "e" = "x = x.add(e)" ∧
    "add" ∈ js_value_pub_methods ∧
    "sub" ∈ js_value_pub_methods ∧
    "mult" ∈ js_value_pub_methods ∧
    run 10 (envSet emptyEnv "x" (.number (F64.ofNat 6)))
        (.expr (expression_to_rust (.assignIdent "x" .division (.numericLiteral (F64.ofNat 2)))))
      = .fault "no binary method named div on JsValue" :=
  ⟨by decide, by decide, by decide, by decide, by decide, by decide, by decide, by decide, rfl⟩

/-- C7: the for-statement lowering places the lowered init clause once
before a single unconditional `loop` whose body is the lowered test
(break when falsy, omitted when absent), then the lowered body, then the
lowered update, in that order; one `loop` step of the interpreter runs
that body and repeats unless a `break` escaped; and the lowered
`let sum = 0; for (let i = 0; i < 3; i++) { sum = sum + i; }` completes
with `sum` = Number 3 (the body ran for i = 0, 1, 2) and `i` = Number 3. -/
theorem c7_for_statement_lowering :
    (∀ (k : DeclKind) (ds : List (String × Option JsExpr)) (t u : JsExpr) (body : JsStmt),
        statement_to_rust (.forStatement (some (.varDecl k ds)) (some t) (some u) body) =
          variable_declaration_to_rust k ds ++
          [RStmt.loopStmt
            ([RStmt.ifFalsyBreak (expression_to_rust t)] ++ statement_to_rust body ++
             [RStmt.exprStmt (expression_to_rust u)])]) ∧
    (∀ (u : JsExpr) (body : JsStmt),
        statement_to_rust (.forStatement none none (some u) body) =
          [RStmt.loopStmt (statement_to_rust body ++ [RStmt.exprStmt (expression_to_rust u)])]) ∧
    (∀ (fuel : Nat) (env : Env) (body : List RStmt),
        run (fuel + 1) env (.stmt (.loopStmt body)) =
          match run fuel env (.stmts body) with
          | .done env1 => run fuel env1 (.stmt (.loopStmt body))
          | .brk env1 => .done env1
          | other => other) ∧
    resultVar (run 100 emptyEnv (.stmts (statements_to_rust forExample))) "sum" =
      some (.number (F64.ofNat 3)) ∧
    resultVar (run 100 emptyEnv (.stmts (statements_to_rust forExample))) "i" =
      some (.number (F64.ofNat 3)) :=
  ⟨fun _ _ _ _ _ => rfl, fun _ _ => rfl, fun _ _ _ => rfl, rfl, rfl⟩

/-- C5 counterexample: the claim says Array `getProp`/`setProp` fault
whenever the numeric key is negative.  On the array built from
`[1, 2, 3]`, the key Number (-1) passes the `index == index.round()`
assertion and Rust's saturating `as usize` cast turns it into index 0,
so `getProp` returns element 0 (Number 1) and `setProp` overwrites
element 0 — neither faults. -/
theorem c5_negative_index_counterexample :
    JsValue.get_prop arr123St (.object 0) (.number (F64.ofInt (-1)))
      = .ok (.number (F64.ofNat 1), arr123St) ∧
    JsValue.set_prop arr123St (.object 0) (.number (F64.ofInt (-1))) (.number (F64.ofNat 9))
      = .ok [⟨[], .array [.number (F64.ofNat 9), .number (F64.ofNat 2), .number (F64.ofNat 3)]⟩] :=
  ⟨rfl, rfl⟩

/-- C5 (amended): on an Array receiver with a numeric key k,
`get_prop` and `set_prop` fault when k is not equal to its own rounded
value, and fault when the index obtained from Rust's saturating
`as usize` cast (0 for negative k) is at or beyond the element count (no
auto-growth); they succeed exactly when k passes the rounding check and
that saturated index is in range — so negative integral keys act as
index 0 instead of faulting. -/
theorem c5_array_index_validation (st : Store) (ref : Nat)
    (props : List (String × JsValue)) (elems : List JsValue) (k : F64) (v : JsValue)
    (h : st[ref]? = some ⟨props, .array elems⟩) :
    (F64.beq k (F64.fround k) = false →
        isFault (JsValue.get_prop st (.object ref) (.number k)) = true ∧
        isFault (JsValue.set_prop st (.object ref) (.number k) v) = true) ∧
    (F64.beq k (F64.fround k) = true → elems.length ≤ F64.toUsize k →
        isFault (JsValue.get_prop st (.object ref) (.number k)) = true ∧
        isFault (JsValue.set_prop st (.object ref) (.number k) v) = true) ∧
    (F64.beq k (F64.fround k) = true → F64.toUsize k < elems.length →
        (∃ w, JsValue.get_prop st (.object ref) (.number k) = .ok (w, st)) ∧
        (∃ st2, JsValue.set_prop st (.object ref) (.number k) v = .ok st2)) := by
  refine ⟨fun hb => ?_, fun hb hlen => ?_, fun hb hlt => ?_⟩
  · constructor
    · simp [JsValue.get_prop, h, hb, isFault]
    · simp [JsValue.set_prop, h, hb, isFault]
  · have hnone : elems[F64.toUsize k]? = none := List.getElem?_eq_none hlen
    constructor
    · simp [JsValue.get_prop, h, hb, hnone, isFault]
    · simp [JsValue.set_prop, h, hb, Nat.not_lt.mpr hlen, isFault]
  · have hsome : elems[F64.toUsize k]? = some elems[F64.toUsize k] :=
      List.getElem?_eq_getElem hlt
    constructor
    · exact ⟨elems[F64.toUsize k], by simp [JsValue.get_prop, h, hb, hsome]⟩
    · refine ⟨List.set st ref ⟨props, .array (elems.set (F64.toUsize k) v)⟩, ?_⟩
      simp [JsValue.set_prop, h, hb, hlt]

/-- Closed instance of `c5_array_index_validation`: the non-integral key
Number 1.5 makes both accessors fault on the `[1, 2, 3]` array. -/
theorem c5_array_index_validation_witness :
    isFault (JsValue.get_prop arr123St (.object 0) (.number ⟨3, 2⟩)) = true ∧
    isFault (JsValue.set_prop arr123St (.object 0) (.number ⟨3, 2⟩) .null) = true :=
  (c5_array_index_validation arr123St 0 []
      [.number (F64.ofNat 1), .number (F64.ofNat 2), .number (F64.ofNat 3)]
      ⟨3, 2⟩ .null rfl).1 (by decide)

/-- C6: on an Array receiver, `get_prop` with key String "length"
returns the Number of the current element count — computed from the
element list, never read from the property table (which is quantified
arbitrarily here, so it is not consulted); writing an element through
`set_prop` at a valid index lands at that index and leaves the length
result unchanged.  For the array built from `[1, 2, 3]`:
`new_array` yields exactly the `arr123St` store, `setProp(1, x)` then
`getProp(1)` returns x, and `getProp("length")` returns Number 3 both
before and after the write. -/
theorem c6_array_length_derived (st : Store) (ref : Nat)
    (props : List (String × JsValue)) (elems : List JsValue)
    (h : st[ref]? = some ⟨props, .array elems⟩) :
    JsValue.get_prop st (.object ref) (.string "length")
      = .ok (.number (F64.ofNat elems.length), st) ∧
    (∀ (i : Nat) (x : JsValue), i < elems.length → i < 2 ^ 64 →
        JsValue.set_prop st (.object ref) (.number (F64.ofNat i)) x
          = .ok (List.set st ref ⟨props, .array (elems.set i x)⟩) ∧
        JsValue.get_prop (List.set st ref ⟨props, .array (elems.set i x)⟩)
            (.object ref) (.number (F64.ofNat i))
          = .ok (x, List.set st ref ⟨props, .array (elems.set i x)⟩) ∧
        JsValue.get_prop (List.set st ref ⟨props, .array (elems.set i x)⟩)
            (.object ref) (.string "length")
          = .ok (.number (F64.ofNat elems.length),
              List.set st ref ⟨props, .array (elems.set i x)⟩)) ∧
    JsValue.new_array [] [.number (F64.ofNat 1), .number (F64.ofNat 2), .number (F64.ofNat 3)]
      = (.object 0, arr123St) ∧
    (∀ x : JsValue,
        JsValue.set_prop arr123St (.object 0) (.number (F64.ofNat 1)) x
          = .ok [⟨[], .array [.number (F64.ofNat 1), x, .number (F64.ofNat 3)]⟩] ∧
        JsValue.get_prop [⟨[], .array [.number (F64.ofNat 1), x, .number (F64.ofNat 3)]⟩]
            (.object 0) (.number (F64.ofNat 1))
          = .ok (x, [⟨[], .array [.number (F64.ofNat 1), x, .number (F64.ofNat 3)]⟩]) ∧
        JsValue.get_prop arr123St (.object 0) (.string "length")
          = .ok (.number (F64.ofNat 3), arr123St) ∧
        JsValue.get_prop [⟨[], .array [.number (F64.ofNat 1), x, .number (F64.ofNat 3)]⟩]
            (.object 0) (.string "length")
          = .ok (.number (F64.ofNat 3),
              [⟨[], .array [.number (F64.ofNat 1), x, .number (F64.ofNat 3)]⟩])) := by
  have hreflt : ref < st.length := by
    by_contra hc
    rw [List.getElem?_eq_none (by omega)] at h
    exact Option.noConfusion h
  refine ⟨by simp [JsValue.get_prop, h], ?_, rfl, fun x => ⟨rfl, rfl, rfl, rfl⟩⟩
  intro i x hi hsmall
  have hb := F64.beq_round_ofNat i
  have hu := F64.toUsize_ofNat i hsmall
  have h2 : (List.set st ref ⟨props, .array (elems.set i x)⟩)[ref]?
      = some ⟨props, .array (elems.set i x)⟩ := List.getElem?_set_eq_of_lt _ hreflt
  have hget : (elems.set i x)[i]? = some x :=
    List.getElem?_set_eq_of_lt _ (by simpa using hi)
  refine ⟨?_, ?_, ?_⟩
  · simp [JsValue.set_prop, h, hb, hu, hi]
  · simp [JsValue.get_prop, h2, hb, hu, hget]
  · simp [JsValue.get_prop, h2]

/-- Closed instance of `c6_array_length_derived` on the `[1, 2, 3]`
array: length reads 3, and writing Number 9 at index 1 is read back while
length still reads 3. -/
theorem c6_array_length_derived_witness :
    JsValue.get_prop arr123St (.object 0) (.string "length")
      = .ok (.number (F64.ofNat 3), arr123St) ∧
    JsValue.set_prop arr123St (.object 0) (.number (F64.ofNat 1)) (.number (F64.ofNat 9))
      = .ok (List.set arr123St 0
          ⟨[], .array [.number (F64.ofNat 1), .number (F64.ofNat 9), .number (F64.ofNat 3)]⟩) :=
  ⟨(c6_array_length_derived arr123St 0 []
      [.number (F64.ofNat 1), .number (F64.ofNat 2), .number (F64.ofNat 3)] rfl).1,
   ((c6_array_length_derived arr123St 0 []
      [.number (F64.ofNat 1), .number (F64.ofNat 2), .number (F64.ofNat 3)] rfl).2.1
      1 (.number (F64.ofNat 9)) (by decide) (by decide)).1⟩

/-- C9: `get_prop` on a Number receiver with key String "toFixed" does
not fault: it allocates and returns a NativeFunction object which, when
called with first argument Number d, returns the String fixed-point
rendering of the receiver with exactly d digits after the (last) decimal
point, all of them decimal digits; `get_prop` on a Number receiver with
any other String key faults, and with any non-String key faults. -/
theorem c9_number_toFixed (st : Store) (n : F64) (d : Nat) (hd : d < 2 ^ 64) :
    JsValue.get_prop st (.number n) (.string "toFixed")
      = .ok (.object st.length, st ++ [⟨[], .function (.toFixed n)⟩]) ∧
    JsValue.call (st ++ [⟨[], .function (.toFixed n)⟩]) (.object st.length)
        [.number (F64.ofNat d)]
      = .ok (.string (fmtFixed n d), st ++ [⟨[], .function (.toFixed n)⟩]) ∧
    (0 < d →
        afterLastDot (fmtFixed n d) = some (fmtFracPart n d) ∧
        (fmtFracPart n d).length = d ∧
        ∀ c ∈ fmtFracPart n d, c.isDigit = true) ∧
    (∀ s : String, s ≠ "toFixed" →
        isFault (JsValue.get_prop st (.number n) (.string s)) = true) ∧
    (∀ k : JsValue, (∀ s, k ≠ .string s) →
        isFault (JsValue.get_prop st (.number n) k) = true) := by
  refine ⟨rfl, ?_, fun hd0 => ⟨?_, fracDigits_length _ _, fracDigits_isDigit _ _⟩, ?_, ?_⟩
  · simp [JsValue.call, List.getElem?_concat_length, JsValue.run_native, F64.toUsize_ofNat d hd]
  · rw [fmtFixed, if_neg (by omega)]
    exact afterLastDot_append _ _ (fracDigits_ne_dot _ _)
  · intro s hs
    simp [JsValue.get_prop, hs, isFault]
  · intro k hk
    cases k with
    | string s => exact absurd rfl (hk s)
    | null => rfl
    | undefined => rfl
    | boolean b => rfl
    | number m => rfl
    | object r => rfl

/-- Closed instance of `c9_number_toFixed`: calling the `toFixed`
closure captured over 1.5 with argument Number 2 renders "1.50". -/
theorem c9_number_toFixed_witness :
    JsValue.call [⟨[], .function (.toFixed ⟨3, 2⟩)⟩] (.object 0) [.number (F64.ofNat 2)]
      = .ok (.string (fmtFixed ⟨3, 2⟩ 2), [⟨[], .function (.toFixed ⟨3, 2⟩)⟩]) ∧
    fmtFixed ⟨3, 2⟩ 2 = "1.50" :=
  ⟨(c9_number_toFixed [] ⟨3, 2⟩ 2 (by decide)).2.1, rfl⟩

/-- C10: on an Array receiver (with arbitrary property table contents),
`get_prop` with any String key other than "length" faults, and
`set_prop` with any String key — "length" included — faults: the
Plain-object behaviour (Undefined for a missing key, upsert on write)
never applies to an Array. -/
theorem c10_array_string_keys (st : Store) (ref : Nat)
    (props : List (String × JsValue)) (elems : List JsValue)
    (h : st[ref]? = some ⟨props, .array elems⟩) :
    (∀ s : String, s ≠ "length" →
        isFault (JsValue.get_prop st (.object ref) (.string s)) = true) ∧
    (∀ (s : String) (v : JsValue),
        isFault (JsValue.set_prop st (.object ref) (.string s) v) = true) := by
  constructor
  · intro s hs
    simp [JsValue.get_prop, h, hs, isFault]
  · intro s v
    simp [JsValue.set_prop, h, isFault]

/-- Closed instance of `c10_array_string_keys` on the `[1, 2, 3]` array:
reading the key "foo" faults even though the table is empty, and writing
"length" faults. -/
theorem c10_array_string_keys_witness :
    isFault (JsValue.get_prop arr123St (.object 0) (.string "foo")) = true ∧
    isFault (JsValue.set_prop arr123St (.object 0) (.string "length") .null) = true :=
  ⟨(c10_array_string_keys arr123St 0 []
      [.number (F64.ofNat 1), .number (F64.ofNat 2), .number (F64.ofNat 3)] rfl).1
      "foo" (by decide),
   (c10_array_string_keys arr123St 0 []
      [.number (F64.ofNat 1), .number (F64.ofNat 2), .number (F64.ofNat 3)] rfl).2
      "length" .null⟩

/-- C8: with `i` bound to Number n (over any other bindings), the lowered
postfix `i++` evaluates to Number n and leaves `i` bound to
Number (n + 1), the pre-update value having been captured in the `tmp`
temporary before rebinding; the lowered prefix `++i` evaluates to
Number (n + 1) and leaves the same binding. -/
theorem c8_update_expression_semantics (env0 : Env) (q : F64) :
    (∃ env1,
        run 20 (envSet env0 "i" (.number q))
            (.expr (expression_to_rust (.update .increment false "i")))
          = .val (.number q) env1 ∧
        env1 "i" = .number (F64.fadd q (F64.ofNat 1)) ∧
        env1 "tmp" = .number q) ∧
    (∃ env2,
        run 20 (envSet env0 "i" (.number q))
            (.expr (expression_to_rust (.update .increment true "i")))
          = .val (.number (F64.fadd q (F64.ofNat 1))) env2 ∧
        env2 "i" = .number (F64.fadd q (F64.ofNat 1))) :=
  ⟨⟨_, rfl, rfl, rfl⟩, ⟨_, rfl, rfl⟩⟩

end JsRs
